import Mathlib

/-!
# Pet necklace (ATtiny85): light sensor task and configuration

A shallow embedding of `Photocell.h` and `RECONFIGURATION/Config.h`.

* Machine integers are natural numbers reduced modulo `2 ^ w` at every store.
* The special-function registers the code touches are fields of `Mcu`.
* The busy-wait on the converter is a loop with fuel; the converter itself is
  described by the number of register reads it stays busy for and by the
  10-bit result it delivers.
* Code of the application that is not part of these two files (the task base
  class, the tilt interrupt, the cadence decision) is modelled from the
  specification and marked as such.
-/

namespace PetNecklace

/-! ## Config.h -/

/-- Macro `#define APP_MANAGER_RATE_MS 100`. -/
def APP_MANAGER_RATE_MS : Nat := 100

/-- Macro `#define PHOTOCELL_READ_RATE_MS 1000`. -/
def PHOTOCELL_READ_RATE_MS : Nat := 1000

/-- Macro `#define CYCLE_RATE_THRESHOLD_FAST 60` (ledCycleCount 100-60). -/
def CYCLE_RATE_THRESHOLD_FAST : Nat := 60

/-- Macro `#define CYCLE_RATE_THRESHOLD_MEDIUM 20` (ledCycleCount 59-20). -/
def CYCLE_RATE_THRESHOLD_MEDIUM : Nat := 20

/-- Macro `#define CYCLE_RATE_THRESHOLD_SLOW 0` (ledCycleCount 19-0). -/
def CYCLE_RATE_THRESHOLD_SLOW : Nat := 0

/-- Macro `#define CYCLE_INCREMENT_BY_X 1`. -/
def CYCLE_INCREMENT_BY_X : Nat := 1

/-- Macro `#define CYCLE_COUNT_MAX 100`. -/
def CYCLE_COUNT_MAX : Nat := 100

/-- Initial value of the counter, `volatile uint8_t ledCycleCount = 0;`. -/
def ledCycleCount : Nat := 0

/-- Enumeration `enum lightThresholds {DARK = 10, SUNDOWN = 40, TWILIGHT = 70};`. -/
inductive lightThresholds where
  | DARK
  | SUNDOWN
  | TWILIGHT
  deriving DecidableEq

/-- The integer value of each enumerator. -/
def lightThresholds.val : lightThresholds → Nat
  | .DARK => 10
  | .SUNDOWN => 40
  | .TWILIGHT => 70

/-- Macro `#define LIGHT_THRESHOLD SUNDOWN`. -/
def LIGHT_THRESHOLD : Nat := lightThresholds.SUNDOWN.val

/-- Macro `#define PHOTOCELL_PIN PB2`. -/
def PHOTOCELL_PIN : Nat := 2

/-! ## Register layout

Bit positions as drawn, most significant bit first, in the register tables of
`Photocell.h`:
`|REFS1|REFS0|ADLAR|REFS2|MUX3|MUX2|MUX1|MUX0|` for ADMUX and
`|ADEN|ADSC|ADATE|ADIF|ADIE|ADPS2|ADPS1|ADPS0|` for ADCSRA. -/

def REFS1 : Nat := 7
def REFS0 : Nat := 6
def ADLAR : Nat := 5
def REFS2 : Nat := 4
def MUX3 : Nat := 3
def MUX2 : Nat := 2
def MUX1 : Nat := 1
def MUX0 : Nat := 0

def ADEN : Nat := 7
def ADSC : Nat := 6
def ADATE : Nat := 5
def ADIF : Nat := 4
def ADIE : Nat := 3
def ADPS2 : Nat := 2
def ADPS1 : Nat := 1
def ADPS0 : Nat := 0

/-- The registers used by the Photocell, and the state of the converter:
`adcBusy` is the number of reads of ADCSRA for which the conversion in
progress still shows ADSC set, `adcResult` the 10-bit result it will
deliver. -/
structure Mcu where
  DDRB : Nat
  ADMUX : Nat
  ADCSRA : Nat
  ADCH : Nat
  adcBusy : Nat
  adcResult : Nat
  deriving DecidableEq

/-- The byte the converter presents in ADCH for a 10-bit result: with ADLAR
set the result is left adjusted and ADCH holds bits 9..2, with ADLAR clear it
is right adjusted and ADCH holds bits 9..8 (the two layouts described in the
comments of `initADC` and `run`). -/
def adcHighByte (admux result : Nat) : Nat :=
  if admux &&& (1 <<< ADLAR) != 0 then (result % 1024) / 4 else (result % 1024) / 256

/-- The division factor selected by ADPS2:ADPS1:ADPS0, the table in the
ADCSRA comment of `initADC`. -/
def adcPrescaler (adcsra : Nat) : Nat :=
  match adcsra % 8 with
  | 0 => 2
  | 1 => 2
  | 2 => 4
  | 3 => 8
  | 4 => 16
  | 5 => 32
  | 6 => 64
  | _ => 128

/-- The ADC clock in Hz for a system clock and an ADCSRA value. -/
def adcClock (fcpu adcsra : Nat) : Nat := fcpu / adcPrescaler adcsra

/-- One read of ADCSRA. While a conversion is in progress (ADSC set) each read
uses up one of the busy reads; the read after the last of them finds the
conversion complete: the hardware has cleared ADSC and latched the high byte
of the result into ADCH. -/
def readADCSRA (m : Mcu) : Nat × Mcu :=
  if m.ADCSRA &&& (1 <<< ADSC) != 0 then
    match m.adcBusy with
    | 0 =>
      let m1 := { m with ADCSRA := m.ADCSRA ^^^ (1 <<< ADSC),
                         ADCH := adcHighByte m.ADMUX m.adcResult }
      (m1.ADCSRA % 256, m1)
    | k + 1 => (m.ADCSRA % 256, { m with adcBusy := k })
  else (m.ADCSRA % 256, m)

/-- The wait loop `while(ADCSRA & (1 << ADSC));` with a bound on the number of
reads. -/
def busyWait : Nat → Mcu → Option Mcu
  | 0, _ => none
  | fuel + 1, m =>
    let r := readADCSRA m
    if r.1 &&& (1 <<< ADSC) != 0 then busyWait fuel r.2 else some r.2

/-- The machine once the conversion that `m` has in progress is complete. -/
def Mcu.converted (m : Mcu) : Mcu :=
  { m with ADCSRA := m.ADCSRA ^^^ (1 <<< ADSC),
           ADCH := adcHighByte m.ADMUX m.adcResult,
           adcBusy := 0 }

/-- The machine right after `ADCSRA |= (1 << ADSC)`. -/
def Mcu.started (m : Mcu) : Mcu :=
  { m with ADCSRA := (m.ADCSRA ||| (1 <<< ADSC)) % 256 }

/-! ## TimedTask (base class of Photocell) -/

/-- Modelled from the spec: the `TimedTask` base class is not part of the two
files. A task carries a next-due timestamp in monotonic milliseconds; the
timestamps of this program are `uint32_t` (`run(uint32_t now)`,
`TimedTask(millis())`). -/
structure TimedTask where
  runTime : Nat
  deriving DecidableEq

/-- Modelled from the spec: `TimedTask::incRunTime` is not part of the two
files. A task updates its next-due timestamp "by adding its period to the
previous next-due value, not to now"; the sum is stored in 32 bits. -/
def TimedTask.incRunTime (t : TimedTask) (inc : Nat) : TimedTask :=
  { runTime := (t.runTime + inc) % 2 ^ 32 }

/-! ## Photocell.h -/

/-- Class `Photocell : public TimedTask` with its private fields
`uint8_t inputPin; uint32_t cycleRate; uint16_t lightLevel;`. -/
structure Photocell extends TimedTask where
  inputPin : Nat
  cycleRate : Nat
  lightLevel : Nat
  deriving DecidableEq

/-- Method `Photocell::initADC`, for the value of the preprocessor symbol `F_CPU`.
The `#if`/`#elif` has no `#else`: for any other clock the assignment to ADCSRA
is left unfinished and there is no program, hence `none`. -/
def Photocell.initADC (F_CPU : Nat) (m : Mcu) : Option Mcu :=
  let m1 := { m with ADMUX :=
    ((1 <<< ADLAR) ||| (0 <<< REFS2) ||| (0 <<< REFS1) ||| (0 <<< REFS0) |||
     (0 <<< MUX3) ||| (0 <<< MUX2) ||| (0 <<< MUX1) ||| (1 <<< MUX0)) % 256 }
  if F_CPU = 1000000 then
    some { m1 with ADCSRA :=
      ((1 <<< ADEN) ||| (0 <<< ADPS2) ||| (1 <<< ADPS1) ||| (1 <<< ADPS0)) % 256 }
  else if F_CPU = 8000000 then
    some { m1 with ADCSRA :=
      ((1 <<< ADEN) ||| (1 <<< ADPS2) ||| (1 <<< ADPS1) ||| (0 <<< ADPS0)) % 256 }
  else none

/-- Constructor `Photocell::Photocell(uint8_t _inputPin, uint32_t _cycleRate)`; `millis`
is the value `millis()` returns at construction. The body runs `initADC` and
then `DDRB &= ~(1 << inputPin)`. -/
def Photocell.new (F_CPU : Nat) (_inputPin _cycleRate millis : Nat) (m : Mcu) :
    Option (Photocell × Mcu) :=
  let p : Photocell :=
    { runTime := millis % 2 ^ 32
      inputPin := _inputPin % 256
      cycleRate := _cycleRate % 2 ^ 32
      lightLevel := 0 }
  match Photocell.initADC F_CPU m with
  | none => none
  | some m1 =>
    some (p, { m1 with DDRB := (m1.DDRB % 256) &&& (255 - (1 <<< p.inputPin) % 256) })

/-- Method `Photocell::run(uint32_t now)`: start a conversion, wait for ADSC to
clear, store ADCH in `lightLevel`, and call `incRunTime(cycleRate)`. The body
never uses `now`; `fuel` bounds the number of reads of the wait loop. -/
def Photocell.run (fuel : Nat) (p : Photocell) (_now : Nat) (m : Mcu) :
    Option (Photocell × Mcu) :=
  let m1 := { m with ADCSRA := (m.ADCSRA ||| (1 <<< ADSC)) % 256 }
  match busyWait fuel m1 with
  | none => none
  | some m2 =>
    let p1 := { p with lightLevel := (m2.ADCH % 256) % 2 ^ 16 }
    some ({ p1 with toTimedTask := p1.toTimedTask.incRunTime p1.cycleRate }, m2)

/-- Accessor `uint8_t Photocell::getLightLevel()`: returns `lightLevel` converted to
`uint8_t`; the object is passed through as the (non-const) method leaves it. -/
def Photocell.getLightLevel (p : Photocell) : Nat × Photocell :=
  (p.lightLevel % 256, p)

/-- Consecutive calls of `getLightLevel`, collecting the returned values. -/
def Photocell.getLightLevelTimes : Nat → Photocell → List Nat × Photocell
  | 0, p => ([], p)
  | n + 1, p =>
    let r := p.getLightLevel
    let rest := Photocell.getLightLevelTimes n r.2
    (r.1 :: rest.1, rest.2)

/-- Successive calls of `run` on one Photocell. Each call comes with its
argument `now` and with the machine state it finds (other tasks, the interrupt
and the hardware act between two calls). -/
def Photocell.runEach (fuel : Nat) : List (Nat × Mcu) → Photocell → Option Photocell
  | [], p => some p
  | c :: rest, p =>
    match p.run fuel c.1 c.2 with
    | none => none
    | some r => Photocell.runEach fuel rest r.1

/-! ## Motion counter and cadence decision -/

/-- Modelled from the spec: the tilt interrupt handler is not part of the two
files. On each edge it increments the Motion Counter "by a fixed step,
saturating at the configured ceiling". This is the value computed in `int`
arithmetic, before it is stored. -/
def motionIncrementRaw (c : Nat) : Nat :=
  if c + CYCLE_INCREMENT_BY_X ≥ CYCLE_COUNT_MAX then CYCLE_COUNT_MAX
  else c + CYCLE_INCREMENT_BY_X

/-- Modelled from the spec: the increment of the interrupt as stored in the
`uint8_t` counter `ledCycleCount`. -/
def motionIncrement (c : Nat) : Nat := motionIncrementRaw c % 256

/-- Modelled from the spec: the decay of the Cadence Decision Task, which is
not part of the two files: "decrement the Motion Counter by the fixed decay
step, floored at 0". The step is a build-time constant that `Config.h` does
not define, so it is a parameter. -/
def motionDecay (step c : Nat) : Nat :=
  if c < step then 0 else (c - step) % 256

/-- The two writers of the Motion Counter. -/
inductive MotionEvent where
  | edge
  | decay
  deriving DecidableEq

/-- The counter after one event. -/
def MotionEvent.apply (step : Nat) (c : Nat) : MotionEvent → Nat
  | .edge => motionIncrement c
  | .decay => motionDecay step c

/-- The counter after a sequence of events, oldest first. -/
def applyEvents (step : Nat) (evs : List MotionEvent) (c : Nat) : Nat :=
  evs.foldl (MotionEvent.apply step) c

/-- Modelled from the spec: the Cadence Tier, "an enumerated value
{FAST, MEDIUM, SLOW}". -/
inductive CadenceTier where
  | FAST
  | MEDIUM
  | SLOW
  deriving DecidableEq

/-- Modelled from the spec: the tier classification of the Cadence Decision
Task, not part of the two files: "counter ≥ high-threshold → FAST;
≥ mid-threshold → MEDIUM; otherwise → SLOW", with the thresholds of
`Config.h`. -/
def classifyTier (c : Nat) : CadenceTier :=
  if c ≥ CYCLE_RATE_THRESHOLD_FAST then .FAST
  else if c ≥ CYCLE_RATE_THRESHOLD_MEDIUM then .MEDIUM
  else .SLOW

/-- Modelled from the spec: the light gate of the Cadence Decision Task, not
part of the two files: "reading below the threshold (darker than threshold)
enables actuation; at or above it, actuation is disabled". -/
def actuationEnabled (threshold reading : Nat) : Bool :=
  decide (reading < threshold)

/-- The pair published to the actuator, with the decayed counter. -/
structure Decision where
  counter : Nat
  tier : CadenceTier
  enabled : Bool
  deriving DecidableEq

/-- Modelled from the spec: one cycle of the Cadence Decision Task, not part
of the two files: decay the counter, classify the decayed value, gate on the
light reading against `LIGHT_THRESHOLD`, publish. -/
def cadenceDecision (step counter reading : Nat) : Decision :=
  let c := motionDecay step counter
  { counter := c, tier := classifyTier c, enabled := actuationEnabled LIGHT_THRESHOLD reading }

/-! ## Bit-level facts -/

theorem and_bit_ne_zero (x k : Nat) : (x &&& (1 <<< k) != 0) = x.testBit k := by
  rw [Nat.one_shiftLeft]
  cases h : x.testBit k
  · have hz : x &&& 2 ^ k = 0 := by
      apply Nat.eq_of_testBit_eq
      intro i
      rw [Nat.testBit_and, Nat.testBit_two_pow, Nat.zero_testBit]
      by_cases hi : k = i
      · subst hi; rw [h]; rfl
      · rw [decide_eq_false hi]; exact Bool.and_false _
    rw [hz]; rfl
  · have hb : (x &&& 2 ^ k).testBit k = true := by
      rw [Nat.testBit_and, h, Nat.testBit_two_pow_self]; rfl
    have hne : x &&& 2 ^ k ≠ 0 := by
      intro h0
      rw [h0, Nat.zero_testBit] at hb
      exact Bool.false_ne_true hb
    simpa using hne

theorem testBit_mod_256 (x k : Nat) (hk : k < 8) : (x % 256).testBit k = x.testBit k := by
  have h256 : (256 : Nat) = 2 ^ 8 := by norm_num
  rw [h256, Nat.testBit_mod_two_pow, decide_eq_true hk]
  exact Bool.true_and _

theorem testBit_set (x k : Nat) : (x ||| (1 <<< k)).testBit k = true := by
  rw [Nat.one_shiftLeft, Nat.testBit_or, Nat.testBit_two_pow_self]
  exact Bool.or_true _

theorem testBit_toggle (x k : Nat) (h : x.testBit k = true) :
    (x ^^^ (1 <<< k)).testBit k = false := by
  rw [Nat.one_shiftLeft, Nat.testBit_xor, Nat.testBit_two_pow_self, h]
  rfl

theorem adcHighByte_lt (admux result : Nat) : adcHighByte admux result < 256 := by
  unfold adcHighByte
  split <;> omega

theorem adcHighByte_left (admux result : Nat) (h : admux.testBit ADLAR = true) :
    adcHighByte admux result = (result % 1024) / 4 := by
  unfold adcHighByte
  rw [and_bit_ne_zero, h]
  rfl

/-! ## The conversion -/

theorem busyWait_converted (fuel : Nat) (m : Mcu) (hbit : m.ADCSRA.testBit ADSC = true)
    (hfuel : m.adcBusy < fuel) : busyWait fuel m = some m.converted := by
  induction fuel generalizing m with
  | zero => omega
  | succ n ih =>
    obtain ⟨ddrb, admux, adcsra, adch, busy, result⟩ := m
    simp only at hbit hfuel
    cases busy with
    | zero =>
      have hclr : ((adcsra ^^^ (1 <<< ADSC)) % 256).testBit ADSC = false := by
        rw [testBit_mod_256 _ _ (by decide)]
        exact testBit_toggle _ _ hbit
      simp only [busyWait, readADCSRA, and_bit_ne_zero, hbit, hclr, if_true, Mcu.converted]
      rfl
    | succ k =>
      have hset : (adcsra % 256).testBit ADSC = true := by
        rw [testBit_mod_256 _ _ (by decide)]
        exact hbit
      simp only [busyWait, readADCSRA, and_bit_ne_zero, hbit, hset, if_true]
      rw [ih ⟨ddrb, admux, adcsra, adch, k, result⟩ hbit (Nat.lt_of_succ_lt_succ hfuel)]
      rfl

theorem started_bit (m : Mcu) : m.started.ADCSRA.testBit ADSC = true := by
  unfold Mcu.started
  simp only
  rw [testBit_mod_256 _ _ (by decide)]
  exact testBit_set _ _

/-- What `run` returns when the wait loop has enough fuel. -/
theorem run_eq (fuel : Nat) (p : Photocell) (now : Nat) (m : Mcu) (hfuel : m.adcBusy < fuel) :
    p.run fuel now m =
      some ({ runTime := (p.runTime + p.cycleRate) % 2 ^ 32
              inputPin := p.inputPin
              cycleRate := p.cycleRate
              lightLevel := adcHighByte m.ADMUX m.adcResult }, m.started.converted) := by
  have hw : busyWait fuel m.started = some m.started.converted :=
    busyWait_converted fuel m.started (started_bit m) hfuel
  have hlt := adcHighByte_lt m.ADMUX m.adcResult
  have h1 : adcHighByte m.ADMUX m.adcResult % 256 % 2 ^ 16 = adcHighByte m.ADMUX m.adcResult := by
    omega
  unfold Photocell.run
  simp only
  have hs : ({ m with ADCSRA := (m.ADCSRA ||| (1 <<< ADSC)) % 256 } : Mcu) = m.started := rfl
  rw [hs, hw]
  simp only [Mcu.converted, Mcu.started, TimedTask.incRunTime, h1]

theorem getLightLevelTimes_eq (n : Nat) (p : Photocell) :
    p.getLightLevelTimes n = (List.replicate n (p.lightLevel % 256), p) := by
  induction n with
  | zero => rfl
  | succ k ih =>
    simp only [Photocell.getLightLevelTimes, Photocell.getLightLevel, List.replicate_succ]
    have h : Photocell.getLightLevelTimes k p = (List.replicate k (p.lightLevel % 256), p) := ih
    rw [h]

theorem runEach_eq (fuel : Nat) (calls : List (Nat × Mcu)) (p : Photocell)
    (hfuel : ∀ c ∈ calls, c.2.adcBusy < fuel) :
    ∃ q, p.runEach fuel calls = some q ∧
      q.runTime % 2 ^ 32 = (p.runTime + calls.length * p.cycleRate) % 2 ^ 32 ∧
      (p.runTime < 2 ^ 32 → q.runTime < 2 ^ 32) ∧
      q.cycleRate = p.cycleRate ∧ q.inputPin = p.inputPin := by
  induction calls generalizing p with
  | nil => exact ⟨p, rfl, by simp, fun h => h, rfl, rfl⟩
  | cons c rest ih =>
    have hc : c.2.adcBusy < fuel := hfuel c (List.mem_cons_self _ _)
    have hrest : ∀ d ∈ rest, d.2.adcBusy < fuel := fun d hd => hfuel d (List.mem_cons_of_mem _ hd)
    obtain ⟨q, hq, hrt, hlt, hcr, hpin⟩ :=
      ih { runTime := (p.runTime + p.cycleRate) % 2 ^ 32
           inputPin := p.inputPin
           cycleRate := p.cycleRate
           lightLevel := adcHighByte c.2.ADMUX c.2.adcResult } hrest
    refine ⟨q, ?_, ?_, ?_, hcr, hpin⟩
    · simp only [Photocell.runEach, run_eq fuel p c.1 c.2 hc]
      exact hq
    · simp only at hrt
      rw [hrt, List.length_cons, Nat.succ_mul]
      generalize rest.length * p.cycleRate = k
      omega
    · intro _
      exact hlt (Nat.mod_lt _ (by norm_num))

theorem motionIncrement_le (c : Nat) : motionIncrement c ≤ CYCLE_COUNT_MAX := by
  unfold motionIncrement motionIncrementRaw CYCLE_COUNT_MAX CYCLE_INCREMENT_BY_X
  split <;> omega

theorem motionDecay_le (step c : Nat) : motionDecay step c ≤ c := by
  unfold motionDecay
  split <;> omega

theorem applyEvents_le (step : Nat) (evs : List MotionEvent) (c : Nat)
    (hc : c ≤ CYCLE_COUNT_MAX) : applyEvents step evs c ≤ CYCLE_COUNT_MAX := by
  induction evs generalizing c with
  | nil => exact hc
  | cons e rest ih =>
    have hstep : MotionEvent.apply step c e ≤ CYCLE_COUNT_MAX := by
      cases e
      · exact motionIncrement_le c
      · exact Nat.le_trans (motionDecay_le step c) hc
    exact ih _ hstep

theorem applyEvents_append (step : Nat) (xs ys : List MotionEvent) (c : Nat) :
    applyEvents step (xs ++ ys) c = applyEvents step ys (applyEvents step xs c) := by
  unfold applyEvents
  exact List.foldl_append _ _ _ _

/-- Repeated edges count up and stop at the ceiling. -/
theorem applyEvents_edges (step n c : Nat) (hc : c ≤ CYCLE_COUNT_MAX) :
    applyEvents step (List.replicate n .edge) c = min (c + n) CYCLE_COUNT_MAX := by
  induction n generalizing c with
  | zero => simp [applyEvents, Nat.min_eq_left hc]
  | succ k ih =>
    have hstep : motionIncrement c ≤ CYCLE_COUNT_MAX := motionIncrement_le c
    have hrec := ih (motionIncrement c) hstep
    unfold applyEvents at hrec ⊢
    rw [List.replicate_succ, List.foldl_cons]
    show List.foldl (MotionEvent.apply step) (motionIncrement c) (List.replicate k .edge) = _
    rw [hrec]
    unfold motionIncrement motionIncrementRaw CYCLE_COUNT_MAX CYCLE_INCREMENT_BY_X at *
    split <;> omega

/-- Repeated decays count down and stop at the floor. -/
theorem applyEvents_decays (step n c : Nat) (hc : c ≤ 255) :
    applyEvents step (List.replicate n .decay) c = c - n * step := by
  induction n generalizing c with
  | zero => simp [applyEvents]
  | succ k ih =>
    have hstep : motionDecay step c ≤ 255 := Nat.le_trans (motionDecay_le step c) hc
    have hrec := ih (motionDecay step c) hstep
    unfold applyEvents at hrec ⊢
    rw [List.replicate_succ, List.foldl_cons]
    show List.foldl (MotionEvent.apply step) (motionDecay step c) (List.replicate k .decay) = _
    rw [hrec, Nat.succ_mul]
    generalize k * step = j
    unfold motionDecay
    split <;> omega

theorem initADC_sets_ADMUX (F_CPU : Nat) (m m1 : Mcu) (h : Photocell.initADC F_CPU m = some m1) :
    m1.ADMUX = 33 := by
  unfold Photocell.initADC at h
  simp only at h
  split at h
  · simp only [Option.some.injEq] at h
    rw [← h]; rfl
  · split at h
    · simp only [Option.some.injEq] at h
      rw [← h]; rfl
    · exact absurd h (by simp)

theorem new_supported (F_CPU pin rate millis : Nat) (m : Mcu)
    (h : F_CPU = 1000000 ∨ F_CPU = 8000000) :
    ∃ m1, Photocell.new F_CPU pin rate millis m =
      some ({ runTime := millis % 2 ^ 32
              inputPin := pin % 256
              cycleRate := rate % 2 ^ 32
              lightLevel := 0 }, m1) := by
  rcases h with h | h <;> subst h <;> exact ⟨_, rfl⟩

/-! ## The claims -/

/-- C1: for every 8-bit value `v` that the conversion leaves in ADCH and every
argument `now`, `run` returns, and afterwards `lightLevel` is `v`, lies in
[0, 255], and `getLightLevel` returns exactly `v`. -/
theorem run_getLightLevel_eq_ADCH (p : Photocell) (m : Mcu) (now fuel v : Nat)
    (hfuel : m.adcBusy < fuel) (hv : adcHighByte m.ADMUX m.adcResult = v) :
    v < 256 ∧ ∃ q m2, p.run fuel now m = some (q, m2) ∧ m2.ADCH = v ∧
      q.lightLevel = v ∧ q.lightLevel ≤ 255 ∧ q.getLightLevel.1 = v := by
  have hlt : v < 256 := hv ▸ adcHighByte_lt m.ADMUX m.adcResult
  refine ⟨hlt, _, _, run_eq fuel p now m hfuel, ?_, ?_, ?_, ?_⟩
  · exact hv
  · exact hv
  · simp only [hv]; omega
  · simp only [Photocell.getLightLevel, hv]; omega

theorem run_getLightLevel_eq_ADCH_witness :
    (2 < 3 ∧ adcHighByte 33 803 = 200) ∧ 200 < 256 ∧
      ∃ q m2, Photocell.run 3 ⟨⟨7⟩, 2, 1000, 0⟩ 5 ⟨0, 33, 131, 0, 2, 803⟩ = some (q, m2) ∧
        m2.ADCH = 200 ∧ q.lightLevel = 200 ∧ q.lightLevel ≤ 255 ∧ q.getLightLevel.1 = 200 :=
  ⟨⟨by decide, by decide⟩,
    run_getLightLevel_eq_ADCH ⟨⟨7⟩, 2, 1000, 0⟩ ⟨0, 33, 131, 0, 2, 803⟩ 5 3 200
      (by decide) (by decide)⟩

/-- C2: for a Photocell built by the constructor with period `rate` at time
`millis`, any number of calls of `run`, whatever their arguments `now` and the
machine states they find, all return, and afterwards the next-due timestamp is
`(millis + n * rate) mod 2^32` and `cycleRate` is still `rate`. -/
theorem runEach_runTime (F_CPU pin rate millis fuel : Nat) (m0 m1 : Mcu) (p : Photocell)
    (calls : List (Nat × Mcu))
    (hnew : Photocell.new F_CPU pin rate millis m0 = some (p, m1))
    (hrate : rate < 2 ^ 32) (hmillis : millis < 2 ^ 32)
    (hfuel : ∀ c ∈ calls, c.2.adcBusy < fuel) :
    p.runTime = millis ∧ p.cycleRate = rate ∧
    ∃ q, p.runEach fuel calls = some q ∧
      q.runTime = (millis + calls.length * rate) % 2 ^ 32 ∧ q.cycleRate = rate := by
  have hp : p.runTime = millis ∧ p.cycleRate = rate := by
    unfold Photocell.new at hnew
    simp only at hnew
    split at hnew
    · exact absurd hnew (by simp)
    · simp only [Option.some.injEq, Prod.mk.injEq] at hnew
      rw [← hnew.1]
      exact ⟨Nat.mod_eq_of_lt hmillis, Nat.mod_eq_of_lt hrate⟩
  obtain ⟨q, hq, hrt, hlt, hcr, _⟩ := runEach_eq fuel calls p hfuel
  refine ⟨hp.1, hp.2, q, hq, ?_, ?_⟩
  · rw [← hp.1, ← hp.2, ← hrt]
    exact (Nat.mod_eq_of_lt (hlt (hp.1 ▸ hmillis))).symm
  · rw [hcr, hp.2]

theorem runEach_runTime_witness :
    (Photocell.new 1000000 2 1000 4294967000 ⟨255, 0, 0, 0, 0, 0⟩ =
        some (⟨⟨4294967000⟩, 2, 1000, 0⟩, ⟨251, 33, 131, 0, 0, 0⟩) ∧
      (1000 : Nat) < 2 ^ 32 ∧ (4294967000 : Nat) < 2 ^ 32) ∧
    ∃ q, Photocell.runEach 4 [(0, ⟨251, 33, 131, 0, 3, 803⟩), (99999, ⟨251, 33, 131, 200, 0, 12⟩),
        (5, ⟨251, 33, 131, 3, 1, 1023⟩)] ⟨⟨4294967000⟩, 2, 1000, 0⟩ = some q ∧
      q.runTime = 2704 ∧ q.cycleRate = 1000 :=
  ⟨⟨by decide, by decide, by decide⟩,
    (runEach_runTime 1000000 2 1000 4294967000 4 ⟨255, 0, 0, 0, 0, 0⟩ ⟨251, 33, 131, 0, 0, 0⟩
      ⟨⟨4294967000⟩, 2, 1000, 0⟩
      [(0, ⟨251, 33, 131, 0, 3, 803⟩), (99999, ⟨251, 33, 131, 200, 0, 12⟩),
        (5, ⟨251, 33, 131, 3, 1, 1023⟩)]
      (by decide) (by decide) (by decide) (by decide)).2.2⟩

/-- C3: actuation is enabled exactly when the reading returned by
`getLightLevel` is strictly below `LIGHT_THRESHOLD` = SUNDOWN = 40, whatever
the counter (hence whatever the tier); 39 enables, 40 does not. -/
theorem enabled_iff_below_threshold (p : Photocell) (step counter : Nat) :
    LIGHT_THRESHOLD = 40 ∧
    ((cadenceDecision step counter p.getLightLevel.1).enabled = true ↔
      p.getLightLevel.1 < 40) ∧
    (∀ r, (cadenceDecision step counter r).enabled = decide (r < 40)) ∧
    (∀ r (t : CadenceTier), (cadenceDecision step counter r).tier = t →
      (cadenceDecision step counter r).enabled = decide (r < 40)) ∧
    (cadenceDecision step counter 39).enabled = true ∧
    (cadenceDecision step counter 40).enabled = false := by
  refine ⟨rfl, ?_, ?_, ?_, ?_, ?_⟩
  · simp [cadenceDecision, actuationEnabled, LIGHT_THRESHOLD, lightThresholds.val]
  · intro r; rfl
  · intro r t _; rfl
  · rfl
  · rfl

/-- C4: with the thresholds of Config.h every counter value in [0, 100] falls
in exactly one tier: 60..100 FAST, 20..59 MEDIUM, 0..19 SLOW; the boundary
values 60 and 20 get the higher tier, 65 is FAST and 19 is SLOW. -/
theorem classifyTier_bands (c : Nat) (hc : c ≤ CYCLE_COUNT_MAX) :
    (classifyTier c = .FAST ↔ 60 ≤ c ∧ c ≤ 100) ∧
    (classifyTier c = .MEDIUM ↔ 20 ≤ c ∧ c ≤ 59) ∧
    (classifyTier c = .SLOW ↔ 0 ≤ c ∧ c ≤ 19) ∧
    CYCLE_RATE_THRESHOLD_SLOW ≤ c ∧
    classifyTier 60 = .FAST ∧ classifyTier 59 = .MEDIUM ∧
    classifyTier 20 = .MEDIUM ∧ classifyTier 19 = .SLOW ∧
    classifyTier 65 = .FAST ∧ classifyTier 100 = .FAST ∧ classifyTier 0 = .SLOW := by
  have hmax : c ≤ 100 := hc
  refine ⟨?_, ?_, ?_, Nat.zero_le _, rfl, rfl, rfl, rfl, rfl, rfl, rfl⟩
  · unfold classifyTier CYCLE_RATE_THRESHOLD_FAST CYCLE_RATE_THRESHOLD_MEDIUM
    split
    · simp; omega
    · split <;> simp <;> omega
  · unfold classifyTier CYCLE_RATE_THRESHOLD_FAST CYCLE_RATE_THRESHOLD_MEDIUM
    split
    · simp; omega
    · split <;> simp <;> omega
  · unfold classifyTier CYCLE_RATE_THRESHOLD_FAST CYCLE_RATE_THRESHOLD_MEDIUM
    split
    · simp; omega
    · split <;> simp <;> omega

theorem classifyTier_bands_witness :
    (60 ≤ CYCLE_COUNT_MAX) ∧ (classifyTier 60 = .FAST ↔ 60 ≤ 60 ∧ 60 ≤ 100) :=
  ⟨by decide, (classifyTier_bands 60 (by decide)).1⟩

/-- C5: starting from the initial value 0, after any finite sequence of
interrupt increments and decays the counter is in [0, 100]; there the
increment computed in `int` fits the `uint8_t` counter (no wrap), and a decay
never raises the counter. 65 increments give 65 and 46 further decays by 1
give 19. -/
theorem motion_counter_bounded (step : Nat) (evs : List MotionEvent) :
    ledCycleCount = 0 ∧
    0 ≤ applyEvents step evs ledCycleCount ∧
    applyEvents step evs ledCycleCount ≤ CYCLE_COUNT_MAX ∧
    applyEvents step evs ledCycleCount ≤ 100 ∧
    applyEvents step evs ledCycleCount + CYCLE_INCREMENT_BY_X ≤ 255 ∧
    motionIncrement (applyEvents step evs ledCycleCount) =
      motionIncrementRaw (applyEvents step evs ledCycleCount) ∧
    motionDecay step (applyEvents step evs ledCycleCount) ≤ applyEvents step evs ledCycleCount ∧
    applyEvents 1 (List.replicate 65 .edge) ledCycleCount = 65 ∧
    applyEvents 1 (List.replicate 65 .edge ++ List.replicate 46 .decay) ledCycleCount = 19 := by
  have hle : applyEvents step evs ledCycleCount ≤ 100 :=
    applyEvents_le step evs ledCycleCount (by decide)
  have h65 : applyEvents 1 (List.replicate 65 .edge) ledCycleCount = 65 :=
    applyEvents_edges 1 65 ledCycleCount (by decide)
  have h19 : applyEvents 1 (List.replicate 65 .edge ++ List.replicate 46 .decay)
      ledCycleCount = 19 := by
    rw [applyEvents_append, h65]
    exact applyEvents_decays 1 46 65 (by decide)
  refine ⟨rfl, Nat.zero_le _, hle, hle, ?_, ?_, motionDecay_le _ _, h65, h19⟩
  · unfold CYCLE_INCREMENT_BY_X; omega
  · have hraw : motionIncrementRaw (applyEvents step evs ledCycleCount) ≤ 100 := by
      unfold motionIncrementRaw CYCLE_COUNT_MAX CYCLE_INCREMENT_BY_X
      split <;> omega
    unfold motionIncrement
    omega

/-- C6: `getLightLevel` leaves the Photocell as it is, so any number of
consecutive calls return the same value, after a run the value that run read
from ADCH; and two runs that read the same ADCH value store the same reading,
whatever was stored before. -/
theorem lightLevel_last_known (p q : Photocell) (m1 m2 : Mcu) (now1 now2 fuel n : Nat)
    (h1 : m1.adcBusy < fuel) (h2 : m2.adcBusy < fuel)
    (hsame : adcHighByte m1.ADMUX m1.adcResult = adcHighByte m2.ADMUX m2.adcResult) :
    p.getLightLevel.2 = p ∧
    p.getLightLevelTimes n = (List.replicate n p.getLightLevel.1, p) ∧
    ∃ p1 q1 m3 m4, p.run fuel now1 m1 = some (p1, m3) ∧ q.run fuel now2 m2 = some (q1, m4) ∧
      p1.lightLevel = m3.ADCH ∧ q1.lightLevel = m4.ADCH ∧ q1.lightLevel = p1.lightLevel ∧
      p1.getLightLevelTimes n = (List.replicate n m3.ADCH, p1) := by
  refine ⟨rfl, getLightLevelTimes_eq n p, _, _, _, _, run_eq fuel p now1 m1 h1,
    run_eq fuel q now2 m2 h2, rfl, rfl, hsame.symm, ?_⟩
  rw [getLightLevelTimes_eq]
  have hlt := adcHighByte_lt m1.ADMUX m1.adcResult
  simp only [Mcu.converted, Mcu.started, Nat.mod_eq_of_lt hlt]

theorem lightLevel_last_known_witness :
    ((1 : Nat) < 3 ∧ (2 : Nat) < 3 ∧ adcHighByte 33 803 = adcHighByte 33 800) ∧
    ∃ p1 q1 m3 m4,
      Photocell.run 3 ⟨⟨0⟩, 2, 1000, 17⟩ 10 ⟨0, 33, 131, 0, 1, 803⟩ = some (p1, m3) ∧
      Photocell.run 3 ⟨⟨0⟩, 2, 1000, 99⟩ 20 ⟨0, 33, 131, 0, 2, 800⟩ = some (q1, m4) ∧
      p1.lightLevel = m3.ADCH ∧ q1.lightLevel = m4.ADCH ∧ q1.lightLevel = p1.lightLevel ∧
      p1.getLightLevelTimes 4 = (List.replicate 4 m3.ADCH, p1) :=
  ⟨⟨by decide, by decide, by decide⟩,
    (lightLevel_last_known ⟨⟨0⟩, 2, 1000, 17⟩ ⟨⟨0⟩, 2, 1000, 99⟩ ⟨0, 33, 131, 0, 1, 803⟩
      ⟨0, 33, 131, 0, 2, 800⟩ 10 20 3 4 (by decide) (by decide) (by decide)).2.2⟩

/-- C7: the value `initADC` writes to ADCSRA has ADEN set, ADSC, ADATE, ADIF
and ADIE clear, and the prescaler bits 0:1:1 (division by 8) for a 1 MHz clock
and 1:1:0 (division by 64) for an 8 MHz clock; both give an ADC clock of
exactly 125 kHz, inside 50-200 kHz. -/
theorem initADC_ADCSRA (m : Mcu) :
    (∃ m1, Photocell.initADC 1000000 m = some m1 ∧ m1.ADCSRA = 0b10000011 ∧
      m1.ADCSRA.testBit ADEN = true ∧ m1.ADCSRA.testBit ADSC = false ∧
      m1.ADCSRA.testBit ADATE = false ∧ m1.ADCSRA.testBit ADIF = false ∧
      m1.ADCSRA.testBit ADIE = false ∧ m1.ADCSRA.testBit ADPS2 = false ∧
      m1.ADCSRA.testBit ADPS1 = true ∧ m1.ADCSRA.testBit ADPS0 = true ∧
      adcPrescaler m1.ADCSRA = 8 ∧ adcClock 1000000 m1.ADCSRA = 125000 ∧
      125000 * adcPrescaler m1.ADCSRA = 1000000) ∧
    (∃ m1, Photocell.initADC 8000000 m = some m1 ∧ m1.ADCSRA = 0b10000110 ∧
      m1.ADCSRA.testBit ADEN = true ∧ m1.ADCSRA.testBit ADSC = false ∧
      m1.ADCSRA.testBit ADATE = false ∧ m1.ADCSRA.testBit ADIF = false ∧
      m1.ADCSRA.testBit ADIE = false ∧ m1.ADCSRA.testBit ADPS2 = true ∧
      m1.ADCSRA.testBit ADPS1 = true ∧ m1.ADCSRA.testBit ADPS0 = false ∧
      adcPrescaler m1.ADCSRA = 64 ∧ adcClock 8000000 m1.ADCSRA = 125000 ∧
      125000 * adcPrescaler m1.ADCSRA = 8000000) ∧
    50000 ≤ 125000 ∧ 125000 ≤ 200000 := by
  refine ⟨⟨_, rfl, ?_⟩, ⟨_, rfl, ?_⟩, by decide, by decide⟩
  · simp only
    decide
  · simp only
    decide

/-- C8: after `initADC` ADMUX is 0b00100001: REFS1, REFS0 and REFS2 clear,
ADLAR set, MUX3:0 = 0001. With that ADMUX a run stores in `lightLevel` the top
8 bits of the 10-bit conversion result, the content of ADCH, a value below
256. -/
theorem initADC_ADMUX_left_adjusted (F_CPU : Nat) (m m1 : Mcu) (p : Photocell)
    (now fuel busy result : Nat)
    (hinit : Photocell.initADC F_CPU m = some m1) (hfuel : busy < fuel) :
    m1.ADMUX = 0b00100001 ∧
    m1.ADMUX.testBit REFS1 = false ∧ m1.ADMUX.testBit REFS0 = false ∧
    m1.ADMUX.testBit ADLAR = true ∧ m1.ADMUX.testBit REFS2 = false ∧
    m1.ADMUX.testBit MUX3 = false ∧ m1.ADMUX.testBit MUX2 = false ∧
    m1.ADMUX.testBit MUX1 = false ∧ m1.ADMUX.testBit MUX0 = true ∧
    m1.ADMUX % 16 = 1 ∧
    ∃ q m2, p.run fuel now { m1 with adcBusy := busy, adcResult := result } = some (q, m2) ∧
      m2.ADCH = (result % 2 ^ 10) / 2 ^ 2 ∧ q.lightLevel = m2.ADCH ∧
      q.getLightLevel.1 = (result % 2 ^ 10) / 2 ^ 2 ∧ q.lightLevel < 2 ^ 8 := by
  have hmux : m1.ADMUX = 33 := initADC_sets_ADMUX F_CPU m m1 hinit
  have hrun := run_eq fuel p now { m1 with adcBusy := busy, adcResult := result } hfuel
  have hhigh : adcHighByte m1.ADMUX result = (result % 1024) / 4 :=
    adcHighByte_left _ _ (by rw [hmux]; decide)
  simp only [hhigh] at hrun
  have hq : ∃ q m2, p.run fuel now { m1 with adcBusy := busy, adcResult := result } =
        some (q, m2) ∧
      m2.ADCH = (result % 2 ^ 10) / 2 ^ 2 ∧ q.lightLevel = m2.ADCH ∧
      q.getLightLevel.1 = (result % 2 ^ 10) / 2 ^ 2 ∧ q.lightLevel < 2 ^ 8 := by
    refine ⟨_, _, hrun, ?_, ?_, ?_, ?_⟩
    · show adcHighByte m1.ADMUX result = _
      rw [hhigh]; norm_num
    · show _ = adcHighByte m1.ADMUX result
      rw [hhigh]
    · show (result % 1024 / 4) % 256 = _
      norm_num
      omega
    · show result % 1024 / 4 < 2 ^ 8
      norm_num
      omega
  refine ⟨hmux, ?_, ?_, ?_, ?_, ?_, ?_, ?_, ?_, ?_, hq⟩ <;> rw [hmux] <;> decide

theorem initADC_ADMUX_left_adjusted_witness :
    (Photocell.initADC 8000000 ⟨255, 0, 0, 0, 0, 0⟩ = some ⟨255, 33, 134, 0, 0, 0⟩ ∧
      (2 : Nat) < 3) ∧
    ∃ q m2, Photocell.run 3 ⟨⟨0⟩, 2, 1000, 0⟩ 7 ⟨255, 33, 134, 0, 2, 803⟩ = some (q, m2) ∧
      m2.ADCH = (803 % 2 ^ 10) / 2 ^ 2 ∧ q.lightLevel = m2.ADCH ∧
      q.getLightLevel.1 = (803 % 2 ^ 10) / 2 ^ 2 ∧ q.lightLevel < 2 ^ 8 :=
  ⟨⟨by decide, by decide⟩,
    (initADC_ADMUX_left_adjusted 8000000 ⟨255, 0, 0, 0, 0, 0⟩ ⟨255, 33, 134, 0, 0, 0⟩
      ⟨⟨0⟩, 2, 1000, 0⟩ 7 3 2 803 (by decide) (by decide)).2.2.2.2.2.2.2.2.2.2⟩

/-- C9: DARK = 10 < SUNDOWN = 40 < TWILIGHT = 70, and a lower threshold
enables actuation for fewer readings: what DARK enables SUNDOWN enables, what
SUNDOWN enables TWILIGHT enables, strictly (10 and 40 separate them); every
setting lies inside the 8-bit range, so reading 0 is enabled and 255 is not. -/
theorem threshold_monotone (r : Nat) :
    lightThresholds.DARK.val = 10 ∧ lightThresholds.SUNDOWN.val = 40 ∧
    lightThresholds.TWILIGHT.val = 70 ∧
    (actuationEnabled lightThresholds.DARK.val r = true →
      actuationEnabled lightThresholds.SUNDOWN.val r = true) ∧
    (actuationEnabled lightThresholds.SUNDOWN.val r = true →
      actuationEnabled lightThresholds.TWILIGHT.val r = true) ∧
    (∀ t1 t2 : Nat, t1 ≤ t2 → actuationEnabled t1 r = true → actuationEnabled t2 r = true) ∧
    actuationEnabled lightThresholds.DARK.val 10 = false ∧
    actuationEnabled lightThresholds.SUNDOWN.val 10 = true ∧
    actuationEnabled lightThresholds.SUNDOWN.val 40 = false ∧
    actuationEnabled lightThresholds.TWILIGHT.val 40 = true ∧
    (∀ t : lightThresholds, 0 < t.val ∧ t.val ≤ 255 ∧
      actuationEnabled t.val 0 = true ∧ actuationEnabled t.val 255 = false) := by
  have hmono : ∀ t1 t2 : Nat, t1 ≤ t2 → actuationEnabled t1 r = true →
      actuationEnabled t2 r = true := by
    intro t1 t2 hle h
    unfold actuationEnabled at h ⊢
    rw [decide_eq_true_iff] at h ⊢
    omega
  refine ⟨rfl, rfl, rfl, hmono _ _ (by decide), hmono _ _ (by decide), hmono,
    by decide, by decide, by decide, by decide, ?_⟩
  intro t
  cases t <;> decide

/-- C10: a newly constructed Photocell has `lightLevel` = 0 and
`getLightLevel` returns 0; 0 is below DARK, SUNDOWN and TWILIGHT, so until the
first run the light gate enables actuation, whatever the state of the
converter. -/
theorem new_lightLevel_zero (F_CPU pin rate millis step counter : Nat) (m : Mcu)
    (h : F_CPU = 1000000 ∨ F_CPU = 8000000) :
    ∃ p m1, Photocell.new F_CPU pin rate millis m = some (p, m1) ∧
      p.lightLevel = 0 ∧ p.getLightLevel = (0, p) ∧
      (∀ n, p.getLightLevelTimes n = (List.replicate n 0, p)) ∧
      (∀ t : lightThresholds, p.getLightLevel.1 < t.val ∧
        actuationEnabled t.val p.getLightLevel.1 = true) ∧
      (cadenceDecision step counter p.getLightLevel.1).enabled = true := by
  obtain ⟨m1, hm1⟩ := new_supported F_CPU pin rate millis m h
  refine ⟨⟨⟨millis % 2 ^ 32⟩, pin % 256, rate % 2 ^ 32, 0⟩, m1, hm1, rfl, rfl, ?_, ?_, rfl⟩
  · intro n
    rw [getLightLevelTimes_eq]
    rfl
  · intro t
    have hzero : ∀ k, 0 < k → (0 : Nat) % 256 < k ∧ actuationEnabled k (0 % 256) = true :=
      fun k hk => ⟨hk, decide_eq_true hk⟩
    exact hzero t.val (by cases t <;> decide)

theorem new_lightLevel_zero_witness :
    ((1000000 : Nat) = 1000000 ∨ (1000000 : Nat) = 8000000) ∧
    ∃ p m1, Photocell.new 1000000 2 1000 12 ⟨255, 0, 0, 77, 0, 1023⟩ = some (p, m1) ∧
      p.lightLevel = 0 ∧ p.getLightLevel = (0, p) ∧
      (∀ n, p.getLightLevelTimes n = (List.replicate n 0, p)) ∧
      (∀ t : lightThresholds, p.getLightLevel.1 < t.val ∧
        actuationEnabled t.val p.getLightLevel.1 = true) ∧
      (cadenceDecision 1 65 p.getLightLevel.1).enabled = true :=
  ⟨Or.inl rfl, new_lightLevel_zero 1000000 2 1000 12 1 65 ⟨255, 0, 0, 77, 0, 1023⟩ (Or.inl rfl)⟩

end PetNecklace
